import Mathlib

/-! # Verification of the authenticated todo backend

Shallow embedding of `backend/middleware/auth.go`, `backend/handlers/todos.go`,
`backend/database/db.go` and `backend/main.go`.

Library calls whose code is not part of the repository (`jwt.Parse`,
`keyfunc.Get`, `pgxpool`, the echo binder and server) are parameters of the
embedded functions.  Calls with side effects thread an arbitrary world state
`σ`, so that a theorem quantified over all such parameters also covers
parameters that record every invocation.
-/

namespace Backend

/-! ## Go values -/

/-- Values of Go type `interface{}` found in a decoded claim set. `null` is the nil interface. -/
inductive Value where
  | null
  | str (s : String)
  | number (digits : String)
  | bool (b : Bool)
  | other (typeName : String)
  deriving DecidableEq, Repr

/-- Type `jwt.MapClaims`, that is `map[string]interface{}`. -/
abbrev MapClaims := List (String × Value)

/-- Map indexing `m[k]`: the nil interface when the key is absent. -/
def MapClaims.get (m : MapClaims) (k : String) : Value :=
  (m.lookup k).getD Value.null

/-- Go `error` values: `*echo.HTTPError` and every other error. -/
inductive GoError where
  | httpError (code : Nat) (message : String)
  | other (msg : String)
  deriving DecidableEq, Repr

/-- Message of an error, as printed by the `%v` verb. -/
def GoError.Error : GoError → String
  | .httpError code message => "code=" ++ toString code ++ ", message=" ++ message
  | .other msg => msg

/-- Constant `http.StatusUnauthorized`. -/
def StatusUnauthorized : Nat := 401
/-- Constant `http.StatusOK`. -/
def StatusOK : Nat := 200
/-- Constant `http.StatusCreated`. -/
def StatusCreated : Nat := 201
/-- Constant `http.StatusBadRequest`. -/
def StatusBadRequest : Nat := 400
/-- Constant `http.StatusNotFound`. -/
def StatusNotFound : Nat := 404

/-- Constructor `echo.NewHTTPError(code, message)`. -/
def NewHTTPError (code : Nat) (message : String) : GoError :=
  GoError.httpError code message

/-! ## strings.Split -/

/-- Scan for `strings.Split` with a one-character separator: the part before the
first separator and the parts after it. -/
def splitAux (sep : Char) : List Char → List Char × List (List Char)
  | [] => ([], [])
  | c :: cs =>
    if c = sep then ([], (splitAux sep cs).1 :: (splitAux sep cs).2)
    else (c :: (splitAux sep cs).1, (splitAux sep cs).2)

/-- Go `strings.Split(s, sep)` for a separator of one character (the middleware
calls it with `" "`): `s` is cut at every occurrence of the separator, which
gives one part more than there are separators. -/
def Split (s : String) (sep : Char) : List String :=
  (((splitAux sep s.data).1) :: (splitAux sep s.data).2).map String.mk

/-! ## Requests, tokens and the echo context -/

/-- Type `http.Header`, a map from canonical header names to their values. -/
abbrev Header := List (String × List String)

/-- Method `http.Header.Get`: the first value of the key, or `""`. -/
def Header.Get (h : Header) (key : String) : String :=
  match h.lookup key with
  | some (v :: _) => v
  | _ => ""

/-- The parts of `*http.Request` a caller controls. -/
structure Request where
  Method : String
  Path : String
  Header : Header
  Body : String
  deriving DecidableEq, Repr

/-- Values of type `interface{}` held in the echo context store. -/
inductive Any where
  | nil
  | claims (m : MapClaims)
  | val (v : Value)
  deriving DecidableEq, Repr

/-- The `echo.Context` of one request: the request, the path parameters bound by
the router and the key/value store. -/
structure Context where
  request : Request
  pathParams : List (String × String)
  store : List (String × Any)
  deriving DecidableEq, Repr

/-- Method `c.Set(key, val)`. -/
def Context.Set (c : Context) (key : String) (v : Any) : Context :=
  { c with store := (key, v) :: c.store }

/-- Method `c.Get(key)`: the nil interface when the key was never set. -/
def Context.Get (c : Context) (key : String) : Any :=
  (c.store.lookup key).getD Any.nil

/-- Method `c.Param(name)`: `""` when the route has no such parameter. -/
def Context.Param (c : Context) (name : String) : String :=
  (c.pathParams.lookup name).getD ""

/-- Interface `jwt.Claims` by dynamic type: `jwt.MapClaims` or anything else. -/
inductive Claims where
  | mapClaims (m : MapClaims)
  | otherClaims (typeName : String)
  deriving DecidableEq, Repr

/-- Type `jwt.Token`. -/
structure Token where
  Raw : String
  Header : List (String × Value)
  Claims : Claims
  Signature : String
  Valid : Bool
  deriving DecidableEq, Repr

/-- The pair `(token, err)` returned by `jwt.Parse`. The middleware reads
`token` only when `err` is nil, where the library returns a non-nil token. -/
structure ParseResult where
  token : Token
  err : Option GoError
  deriving DecidableEq, Repr

/-- Record type `handlers.Todo`. -/
structure Todo where
  ID : Int
  UserID : String
  Title : String
  Completed : Bool
  deriving DecidableEq, Repr

/-- JSON values the handlers send with `c.JSON`. -/
inductive Payload where
  | todos (ts : List Todo)
  | status (s : String)
  deriving DecidableEq, Repr

/-- What running a handler gives: `c.JSON` returned nil after writing the
response, or an error was returned, or the goroutine panicked. -/
inductive Result where
  | json (status : Nat) (body : Payload)
  | err (e : GoError)
  | panic (msg : String)
  deriving DecidableEq, Repr

/-- A computation with side effects on a world of type `σ`. -/
abbrev Eff (σ : Type) (α : Type) := σ → α × σ

/-- Type `echo.HandlerFunc`. -/
abbrev HandlerFunc (σ : Type) := Context → Eff σ Result

/-! ## middleware/auth.go -/

/-- Function `JWTMiddleware`. `Parse tokenStr` stands for
`jwt.Parse(tokenStr, jwks.Keyfunc)`. -/
def JWTMiddleware {σ : Type} (Parse : String → Eff σ ParseResult)
    (next : HandlerFunc σ) : HandlerFunc σ :=
  fun c s =>
    let header := c.request.Header.Get "Authorization"
    if header = "" then
      (Result.err (NewHTTPError StatusUnauthorized "missing Authorization header"), s)
    else
      let parts := Split header ' '
      if parts.length ≠ 2 ∨ parts[0]? ≠ some "Bearer" then
        (Result.err (NewHTTPError StatusUnauthorized "invalid Authorization header"), s)
      else
        let tokenStr := parts.getD 1 ""
        let r := Parse tokenStr s
        if r.1.err ≠ none ∨ r.1.token.Valid = false then
          (Result.err (NewHTTPError StatusUnauthorized "invalid token"), r.2)
        else
          match r.1.token.Claims with
          | Claims.mapClaims claims => next (c.Set "claims" (Any.claims claims)) r.2
          | Claims.otherClaims _ =>
            (Result.err (NewHTTPError StatusUnauthorized "invalid token claims"), r.2)

/-- Function `InitJWKS`'s options record `keyfunc.Options`; fields the repository
never sets keep their zero value. -/
structure Options where
  RefreshInterval : Nat := 0
  RefreshRateLimit : Nat := 0
  RefreshTimeout : Nat := 0
  RefreshUnknownKID : Bool := false
  deriving DecidableEq, Repr

/-- The state of the server process during start-up: the outside world, the
package globals `middleware.jwks` and `database.DB`, the log output, the echo
instance built so far and the exit status once the process has terminated. -/
structure Process (σ κ π : Type) where
  world : σ
  jwks : Option κ
  DB : Option π
  log : List String
  use : List String
  groupUse : List String
  routes : List (String × String × String)
  started : List String
  exit : Option Nat

/-- Function `InitJWKS`. `Get` stands for `keyfunc.Get`, which returns the pair
`(jwks, err)`. -/
def InitJWKS {σ κ π : Type} (Get : String → Options → Eff σ (Option κ × Option GoError))
    (authURL : String) (p : Process σ κ π) : Option GoError × Process σ κ π :=
  let jwksURL := authURL ++ "/api/auth/jwks"
  let r := Get jwksURL { RefreshUnknownKID := true } p.world
  (r.1.2, { p with world := r.2, jwks := r.1.1 })

/-! ## database/db.go -/

/-- Function `database.InitDB`. `New` stands for `pgxpool.New(context.Background(), url)`;
`log.Fatal` prints and exits with status 1. -/
def InitDB {σ κ π : Type} (Getenv : String → String)
    (New : String → Eff σ (Option π × Option GoError))
    (p : Process σ κ π) : Process σ κ π :=
  let url := Getenv "POSTGRES_URL"
  if url = "" then
    { p with log := p.log ++ ["POSTGRES_URL is not set"], exit := some 1 }
  else
    let r := New url p.world
    match r.1.2 with
    | some err =>
      { p with world := r.2, DB := r.1.1,
               log := p.log ++ ["Unable to connect to database: " ++ err.Error ++ "\n"],
               exit := some 1 }
    | none =>
      { p with world := r.2, DB := r.1.1,
               log := p.log ++ ["Connected to PostgreSQL database"] }

/-! ## handlers/todos.go -/

/-- Errors of package `strconv`. -/
inductive NumError where
  | ErrSyntax
  | ErrRange
  deriving DecidableEq, Repr

/-- The digit loop of `strconv.ParseUint` in base 10: a byte that is no decimal
digit is a syntax error, a value above `maxVal` a range error. -/
def parseUintLoop (maxVal : Nat) : List Char → Nat → Except NumError Nat
  | [], n => Except.ok n
  | c :: cs, n =>
    if '0' ≤ c ∧ c ≤ '9' then
      if n ≥ (2 ^ 64 - 1) / 10 + 1 then Except.error NumError.ErrRange
      else if n * 10 + (c.toNat - '0'.toNat) > maxVal then Except.error NumError.ErrRange
      else parseUintLoop maxVal cs (n * 10 + (c.toNat - '0'.toNat))
    else Except.error NumError.ErrSyntax

/-- Go `strconv.ParseUint(s, 10, bitSize)`: the value and the error; on a range
error the value is the largest one of the bit size. -/
def ParseUint (s : List Char) (bitSize : Nat) : Nat × Option NumError :=
  if s = [] then (0, some NumError.ErrSyntax)
  else
    match parseUintLoop (2 ^ bitSize - 1) s 0 with
    | Except.ok n => (n, none)
    | Except.error NumError.ErrRange => (2 ^ bitSize - 1, some NumError.ErrRange)
    | Except.error NumError.ErrSyntax => (0, some NumError.ErrSyntax)

/-- Go `strconv.ParseInt(s, 10, bitSize)`. -/
def ParseInt (s : String) (bitSize : Nat) : Except NumError Int :=
  match s.data with
  | [] => Except.error NumError.ErrSyntax
  | c :: cs =>
    let neg := decide (c = '-')
    let digits := if c = '+' ∨ c = '-' then cs else c :: cs
    let r := ParseUint digits bitSize
    if r.2 = some NumError.ErrSyntax then Except.error NumError.ErrSyntax
    else if neg = false ∧ r.1 ≥ 2 ^ (bitSize - 1) then Except.error NumError.ErrRange
    else if neg = true ∧ r.1 > 2 ^ (bitSize - 1) then Except.error NumError.ErrRange
    else Except.ok (if neg then - (r.1 : Int) else (r.1 : Int))

/-- Arguments bound to the placeholders `$1`, `$2` of a statement. -/
inductive Arg where
  | str (s : String)
  | int (n : Int)
  deriving DecidableEq, Repr

/-- The two methods of `*pgxpool.Pool` the handlers call on `database.DB`, over
rows of type `ρ`; `Exec` gives the number of rows affected. -/
structure Pool (σ ρ : Type) where
  Query : String → List Arg → Eff σ (Except GoError (List ρ))
  Exec : String → List Arg → Eff σ (Except GoError Nat)

/-- The statement of `GetTodos`. -/
def selectTodos : String :=
  "SELECT id, user_id, title, completed FROM todos WHERE user_id=$1 ORDER BY id DESC"

/-- The statement of `CreateTodo`. -/
def insertTodo : String :=
  "INSERT INTO todos(user_id, title) VALUES($1,$2)"

/-- The statement `cmd` of `DeleteTodo`. -/
def deleteTodo : String :=
  "\n        DELETE FROM todos\n        WHERE id = $1 AND user_id = $2\n    "

/-- The statement `cmd` of `ToggleTodo`. -/
def toggleTodo : String :=
  "\n        UPDATE todos\n        SET completed = NOT completed\n        WHERE id = $1 AND user_id = $2\n    "

/-- Name of the dynamic type of a claim value, as the runtime prints it. -/
def Value.typeName : Value → String
  | Value.null => "nil"
  | Value.str _ => "string"
  | Value.number _ => "float64"
  | Value.bool _ => "bool"
  | Value.other typeName => typeName

/-- Name of the dynamic type of a value of the context store. -/
def Any.typeName : Any → String
  | Any.nil => "nil"
  | Any.claims _ => "jwt.MapClaims"
  | Any.val v => v.typeName

/-- The panic of a failed type assertion `x.(T)` on an `interface{}` whose
dynamic type is `dynamic`. -/
def assertionPanic (dynamic target : String) : Result :=
  Result.panic ("interface conversion: interface \x7b\x7d is " ++ dynamic ++ ", not " ++ target)

/-- The loop `for rows.Next()` of `GetTodos`: each row is scanned into a fresh
`Todo`, which is appended whatever `rows.Scan` returned; a failed `rows.Scan`
closes the rows, so that the next `rows.Next()` is false. -/
def scanRows {ρ : Type} (Scan : ρ → Todo → Todo × Option GoError) :
    List ρ → List Todo → List Todo
  | [], todos => todos
  | row :: rest, todos =>
    if (Scan row ⟨0, "", "", false⟩).2 = none then
      scanRows Scan rest (todos ++ [(Scan row ⟨0, "", "", false⟩).1])
    else todos ++ [(Scan row ⟨0, "", "", false⟩).1]

/-- Function `GetTodos`. `Scan row t` is `t` after `rows.Scan` wrote the columns
of `row` into its fields, with the error of `rows.Scan`, which the code drops. -/
def GetTodos {σ ρ : Type} (DB : Pool σ ρ) (Scan : ρ → Todo → Todo × Option GoError) :
    HandlerFunc σ :=
  fun c s =>
    match c.Get "claims" with
    | Any.claims claims =>
      match claims.get "sub" with
      | Value.str userID =>
        let r := DB.Query selectTodos [Arg.str userID] s
        match r.1 with
        | Except.error _ => (Result.err (GoError.other ""), r.2)
        | Except.ok rows =>
          let todos := scanRows Scan rows []
          (Result.json StatusOK (Payload.todos todos), r.2)
      | v => (assertionPanic v.typeName "string", s)
    | a => (assertionPanic a.typeName "jwt.MapClaims", s)

/-- Function `CreateTodo`. `Bind c` is the `Title` field after `c.Bind(&body)`,
or the error of the binder. -/
def CreateTodo {σ ρ : Type} (DB : Pool σ ρ) (Bind : Context → Except GoError String) :
    HandlerFunc σ :=
  fun c s =>
    match c.Get "claims" with
    | Any.claims claims =>
      match claims.get "sub" with
      | Value.str userID =>
        match Bind c with
        | Except.error err => (Result.err err, s)
        | Except.ok title =>
          let r := DB.Exec insertTodo [Arg.str userID, Arg.str title] s
          match r.1 with
          | Except.error err => (Result.err err, r.2)
          | Except.ok _ => (Result.json StatusCreated (Payload.status "ok"), r.2)
      | v => (assertionPanic v.typeName "string", s)
    | a => (assertionPanic a.typeName "jwt.MapClaims", s)

/-- Function `DeleteTodo`. -/
def DeleteTodo {σ ρ : Type} (DB : Pool σ ρ) : HandlerFunc σ :=
  fun c s =>
    match c.Get "claims" with
    | Any.claims claims =>
      match claims.get "sub" with
      | Value.str userID =>
        match ParseInt (c.Param "id") 64 with
        | Except.error _ => (Result.err (NewHTTPError StatusBadRequest "invalid id"), s)
        | Except.ok id =>
          let r := DB.Exec deleteTodo [Arg.int id, Arg.str userID] s
          match r.1 with
          | Except.error err => (Result.err err, r.2)
          | Except.ok rowsAffected =>
            if rowsAffected = 0 then
              (Result.err (NewHTTPError StatusNotFound "todo not found"), r.2)
            else (Result.json StatusOK (Payload.status "deleted"), r.2)
      | v => (assertionPanic v.typeName "string", s)
    | a => (assertionPanic a.typeName "jwt.MapClaims", s)

/-- Function `ToggleTodo`. -/
def ToggleTodo {σ ρ : Type} (DB : Pool σ ρ) : HandlerFunc σ :=
  fun c s =>
    match c.Get "claims" with
    | Any.claims claims =>
      match claims.get "sub" with
      | Value.str userID =>
        match ParseInt (c.Param "id") 64 with
        | Except.error _ => (Result.err (NewHTTPError StatusBadRequest "invalid id"), s)
        | Except.ok id =>
          let r := DB.Exec toggleTodo [Arg.int id, Arg.str userID] s
          match r.1 with
          | Except.error err => (Result.err err, r.2)
          | Except.ok rowsAffected =>
            if rowsAffected = 0 then
              (Result.err (NewHTTPError StatusNotFound "todo not found"), r.2)
            else (Result.json StatusOK (Payload.status "toggled"), r.2)
      | v => (assertionPanic v.typeName "string", s)
    | a => (assertionPanic a.typeName "jwt.MapClaims", s)

/-! ## main.go -/

/-- Function `main`, from an initial process state. `Getenv` is `os.Getenv` after
`godotenv.Load()`; `Start` stands for `e.Start`, which returns when the server
stops, after which `e.Logger.Fatal` exits. A route is recorded as its method,
its full path and the name of its handler; the routes of group `/api` run
behind the middleware recorded in `groupUse`. -/
def main {σ κ π : Type} (Getenv : String → String)
    (New : String → Eff σ (Option π × Option GoError))
    (Get : String → Options → Eff σ (Option κ × Option GoError))
    (Start : String → Eff σ GoError)
    (p0 : Process σ κ π) : Process σ κ π :=
  let p1 := InitDB Getenv New p0
  if p1.exit ≠ none then p1
  else
    let authURL := Getenv "BETTER_AUTH_URL"
    let r := InitJWKS Get authURL p1
    match r.1 with
    | some err =>
      { r.2 with log := r.2.log ++ ["Failed to initialize JWKS: " ++ err.Error],
                 exit := some 1 }
    | none =>
      let p2 := { r.2 with use := r.2.use ++ ["Recover", "RemoveTrailingSlash", "CORS"] }
      let p3 := { p2 with routes := p2.routes ++ [("GET", "/health", "health")] }
      let p4 := { p3 with groupUse := p3.groupUse ++ ["JWTMiddleware"] }
      let p5 := { p4 with routes := p4.routes ++
                    [("GET", "/api/todos", "GetTodos"),
                     ("POST", "/api/todos", "CreateTodo"),
                     ("PATCH", "/api/todos/:id/toggle", "ToggleTodo"),
                     ("DELETE", "/api/todos/:id", "DeleteTodo")] }
      let p6 := { p5 with log := p5.log ++ ["Server running on http://localhost:8080"] }
      let e := Start ":8080" p6.world
      { p6 with world := e.2, started := p6.started ++ [":8080"],
                log := p6.log ++ [e.1.Error], exit := some 1 }

/-! ## Recording the calls to the collaborators -/

/-- One call to a collaborator of the code under verification. -/
inductive Call where
  | parse (tokenStr : String)
  | next (c : Context)
  | query (sql : String) (args : List Arg)
  | exec (sql : String) (args : List Arg)
  | fetch (url : String) (opts : Options)
  deriving DecidableEq, Repr

/-- The token verifier `Parse`, recording each call and its argument. -/
def traceParse {σ : Type} (Parse : String → Eff σ ParseResult) :
    String → Eff (σ × List Call) ParseResult :=
  fun tokenStr s => ((Parse tokenStr s.1).1, ((Parse tokenStr s.1).2, s.2 ++ [Call.parse tokenStr]))

/-- A handler, recording each invocation and the context it receives. -/
def traceNext {σ : Type} (next : HandlerFunc σ) : HandlerFunc (σ × List Call) :=
  fun c s => ((next c s.1).1, ((next c s.1).2, s.2 ++ [Call.next c]))

/-- A connection pool, recording each statement and its bound arguments. -/
def tracePool {σ ρ : Type} (DB : Pool σ ρ) : Pool (σ × List Call) ρ where
  Query := fun sql args s =>
    ((DB.Query sql args s.1).1, ((DB.Query sql args s.1).2, s.2 ++ [Call.query sql args]))
  Exec := fun sql args s =>
    ((DB.Exec sql args s.1).1, ((DB.Exec sql args s.1).2, s.2 ++ [Call.exec sql args]))

/-- The key-set fetch `Get`, recording each call with its URL and options. -/
def traceGet {σ κ : Type} (Get : String → Options → Eff σ (Option κ × Option GoError)) :
    String → Options → Eff (σ × List Call) (Option κ × Option GoError) :=
  fun url opts s => ((Get url opts s.1).1, ((Get url opts s.1).2, s.2 ++ [Call.fetch url opts]))

/-- The checks of `JWTMiddleware` all pass on context `c` in world `s`: the header
is not empty, it splits into `Bearer` and a token, `Parse` returns no error, the
token is valid and its claims are `jwt.MapClaims`. -/
def Verified {σ : Type} (Parse : String → Eff σ ParseResult) (c : Context) (s : σ) : Prop :=
  c.request.Header.Get "Authorization" ≠ "" ∧
  ∃ tokenStr claims,
    Split (c.request.Header.Get "Authorization") ' ' = ["Bearer", tokenStr] ∧
    (Parse tokenStr s).1.err = none ∧
    (Parse tokenStr s).1.token.Valid = true ∧
    (Parse tokenStr s).1.token.Claims = Claims.mapClaims claims

/-- Number of recorded invocations of the downstream handler. -/
def nextCalls (calls : List Call) : Nat :=
  (calls.filter (fun k => match k with | Call.next _ => true | _ => false)).length

/-- The arguments of the recorded calls to the token verifier, in order. -/
def parseCalls : List Call → List String
  | [] => []
  | Call.parse tokenStr :: ks => tokenStr :: parseCalls ks
  | _ :: ks => parseCalls ks

/-! ## Reading the statements -/

/-- Lexical tokens of a statement: words, placeholders `$n` and punctuation. -/
inductive Tok where
  | word (w : String)
  | param (n : Nat)
  | sym (c : Char)
  deriving DecidableEq, Repr

/-- Value of a string of decimal digits. -/
def decimal : List Char → Nat → Option Nat
  | [], n => some n
  | c :: cs, n =>
    if '0' ≤ c ∧ c ≤ '9' then decimal cs (n * 10 + (c.toNat - '0'.toNat)) else none

/-- The token of a maximal run of word characters. -/
def mkTok (w : List Char) : Tok :=
  match w with
  | '$' :: d :: ds =>
    match decimal (d :: ds) 0 with
    | some n => Tok.param n
    | none => Tok.word (String.mk w)
  | _ => Tok.word (String.mk w)

/-- The token of the run collected so far, if any. -/
def flushWord (cur : List Char) : List Tok :=
  if cur = [] then [] else [mkTok cur.reverse]

/-- Tokens of a statement text; `cur` is the current run, last character first. -/
def tokenize : List Char → List Char → List Tok
  | [], cur => flushWord cur
  | c :: cs, cur =>
    if c.isAlphanum = true ∨ c = '_' ∨ c = '$' then tokenize cs (c :: cur)
    else if c = ' ' ∨ c = '\n' ∨ c = '\t' ∨ c = '\r' then flushWord cur ++ tokenize cs []
    else flushWord cur ++ Tok.sym c :: tokenize cs []

/-- A column of the statement together with the number of the placeholder it is
compared with or written from. -/
abbrev Binding := String × Nat

/-- A conjunction `col = $n AND col = $n ...` and the tokens after it. -/
def parseConds : List Tok → Option (List Binding × List Tok)
  | Tok.word col :: Tok.sym e :: Tok.param n :: rest =>
    if e = '=' then
      match rest with
      | Tok.word w :: rest2 =>
        if w = "AND" then
          match parseConds rest2 with
          | some (bs, r) => some ((col, n) :: bs, r)
          | none => none
        else some ([(col, n)], rest)
      | _ => some ([(col, n)], rest)
    else none
  | _ => none

/-- A list of names separated by commas and the tokens after it. -/
def parseNames : List Tok → Option (List String × List Tok)
  | Tok.word w :: Tok.sym c :: rest =>
    if c = ',' then
      match parseNames rest with
      | some (ws, r) => some (w :: ws, r)
      | none => none
    else some ([w], Tok.sym c :: rest)
  | Tok.word w :: rest => some ([w], rest)
  | _ => none

/-- A list of placeholders separated by commas and the tokens after it. -/
def parseParams : List Tok → Option (List Nat × List Tok)
  | Tok.param n :: Tok.sym c :: rest =>
    if c = ',' then
      match parseParams rest with
      | some (ns, r) => some (n :: ns, r)
      | none => none
    else some ([n], Tok.sym c :: rest)
  | Tok.param n :: rest => some ([n], rest)
  | _ => none

/-- The four shapes of statement the handlers send. -/
inductive Stmt where
  | select (cols : List String) (table : String) (conds : List Binding) (order : List Tok)
  | insert (table : String) (cols : List String) (vals : List Nat)
  | delete (table : String) (conds : List Binding)
  | update (table : String) (set : List Tok) (conds : List Binding)
  deriving DecidableEq, Repr

/-- Nothing, or an `ORDER BY` clause on one column, follows the conditions. -/
def isOrderBy : List Tok → Bool
  | [] => true
  | [Tok.word o, Tok.word b, Tok.word _] => decide (o = "ORDER" ∧ b = "BY")
  | [Tok.word o, Tok.word b, Tok.word _, Tok.word d] =>
    decide (o = "ORDER" ∧ b = "BY" ∧ (d = "ASC" ∨ d = "DESC"))
  | _ => false

/-- The statement a token list spells, when it has one of the four shapes with a
`WHERE` clause that is a conjunction of `col = $n`. -/
def parseStmt : List Tok → Option Stmt
  | Tok.word k :: rest =>
    if k = "SELECT" then
      match parseNames rest with
      | some (cols, Tok.word f :: Tok.word table :: Tok.word w :: rest2) =>
        if f = "FROM" ∧ w = "WHERE" then
          match parseConds rest2 with
          | some (conds, order) =>
            if isOrderBy order = true then some (Stmt.select cols table conds order) else none
          | none => none
        else none
      | _ => none
    else if k = "INSERT" then
      match rest with
      | Tok.word i :: Tok.word table :: Tok.sym l :: rest2 =>
        if i = "INTO" ∧ l = '(' then
          match parseNames rest2 with
          | some (cols, Tok.sym r :: Tok.word v :: Tok.sym l2 :: rest3) =>
            if r = ')' ∧ v = "VALUES" ∧ l2 = '(' then
              match parseParams rest3 with
              | some (vals, [Tok.sym r2]) =>
                if r2 = ')' ∧ cols.length = vals.length then some (Stmt.insert table cols vals)
                else none
              | _ => none
            else none
          | _ => none
        else none
      | _ => none
    else if k = "DELETE" then
      match rest with
      | Tok.word f :: Tok.word table :: Tok.word w :: rest2 =>
        if f = "FROM" ∧ w = "WHERE" then
          match parseConds rest2 with
          | some (conds, []) => some (Stmt.delete table conds)
          | _ => none
        else none
      | _ => none
    else if k = "UPDATE" then
      match rest with
      | Tok.word table :: Tok.word st :: rest2 =>
        if st = "SET" then
          match rest2.dropWhile (fun t => decide (t ≠ Tok.word "WHERE")) with
          | _ :: rest3 =>
            match parseConds rest3 with
            | some (conds, []) =>
              some (Stmt.update table
                (rest2.takeWhile (fun t => decide (t ≠ Tok.word "WHERE"))) conds)
            | _ => none
          | [] => none
        else none
      | _ => none
    else none
  | _ => none

/-- The statement a text spells. -/
def parseSQL (sql : String) : Option Stmt :=
  parseStmt (tokenize sql.data [])

/-- The columns a statement ties to placeholders: the conditions of the `WHERE`
clause of a `SELECT`, `DELETE` or `UPDATE`, the written columns of an `INSERT`. -/
def Stmt.bindings : Stmt → List Binding
  | Stmt.select _ _ conds _ => conds
  | Stmt.insert _ cols vals => cols.zip vals
  | Stmt.delete _ conds => conds
  | Stmt.update _ _ conds => conds

/-- The argument bound to placeholder `$n`. -/
def bound (args : List Arg) (n : Nat) : Option Arg :=
  if n = 0 then none else args[n - 1]?

/-- The value of a column of a row of table `todos`, for the columns that hold
an integer or a text. -/
def columnValue (row : Todo) (col : String) : Option Arg :=
  if col = "id" then some (Arg.int row.ID)
  else if col = "user_id" then some (Arg.str row.UserID)
  else if col = "title" then some (Arg.str row.Title)
  else none

/-- The argument a recorded statement binds to the placeholder that its text
ties to column `user_id`; none when the text is no statement of the four shapes
or does not tie `user_id` to a placeholder. -/
def ownerKey : Call → Option Arg
  | Call.query sql args =>
    match parseSQL sql with
    | some st =>
      match st.bindings.lookup "user_id" with
      | some n => bound args n
      | none => none
    | none => none
  | Call.exec sql args =>
    match parseSQL sql with
    | some st =>
      match st.bindings.lookup "user_id" with
      | some n => bound args n
      | none => none
    | none => none
  | _ => none

/-- Row `row` of table `todos` can be returned, deleted, updated or created by the
recorded statement: it agrees with the bound argument on every column the text
ties to a placeholder. A text that is no statement of the four shapes is taken
to reach every row. -/
def touches (k : Call) (row : Todo) : Prop :=
  match k with
  | Call.query sql args =>
    match parseSQL sql with
    | some st => ∀ b ∈ st.bindings, ∀ v, columnValue row b.1 = some v → bound args b.2 = some v
    | none => True
  | Call.exec sql args =>
    match parseSQL sql with
    | some st => ∀ b ∈ st.bindings, ∀ v, columnValue row b.1 = some v → bound args b.2 = some v
    | none => True
  | _ => False

/-! ## Sample inputs -/

/-- A request for `GET /api/todos` whose Authorization header has the given value. -/
def requestWith (auth : String) : Context :=
  { request := { Method := "GET", Path := "/api/todos",
                 Header := [("Authorization", [auth])], Body := "" },
    pathParams := [], store := [] }

/-- A request for `GET /api/todos` without an Authorization header. -/
def requestWithout : Context :=
  { request := { Method := "GET", Path := "/api/todos", Header := [], Body := "" },
    pathParams := [], store := [] }

/-- A request for `DELETE /api/todos/7` of a caller whose body names another user. -/
def requestDelete (auth : String) : Context :=
  { request := { Method := "DELETE", Path := "/api/todos/7",
                 Header := [("Authorization", [auth])], Body := "\x7b\"user_id\":\"user-1\"\x7d" },
    pathParams := [("id", "7")], store := [] }

/-- A verifier that accepts the token `good`, with subject `user-42`, and the
token `nosub`, whose claim set has no `sub` entry; it returns claims of another
type for `typed` and an error for every other string. -/
def sampleParse : String → Eff Unit ParseResult :=
  fun tokenStr s =>
    if tokenStr = "good" then
      ({ token := { Raw := tokenStr, Header := [("alg", Value.str "EdDSA")],
                    Claims := Claims.mapClaims [("sub", Value.str "user-42")],
                    Signature := "sig", Valid := true },
         err := none }, s)
    else if tokenStr = "nosub" then
      ({ token := { Raw := tokenStr, Header := [("alg", Value.str "EdDSA")],
                    Claims := Claims.mapClaims [("exp", Value.number "4102444800")],
                    Signature := "sig", Valid := true },
         err := none }, s)
    else if tokenStr = "typed" then
      ({ token := { Raw := tokenStr, Header := [("alg", Value.str "EdDSA")],
                    Claims := Claims.otherClaims "jwt.RegisteredClaims",
                    Signature := "sig", Valid := true },
         err := none }, s)
    else
      ({ token := { Raw := tokenStr, Header := [], Claims := Claims.mapClaims [],
                    Signature := "", Valid := false },
         err := some (GoError.other "token contains an invalid number of segments") }, s)

/-- A downstream handler that answers 200. -/
def sampleNext : HandlerFunc Unit :=
  fun _ s => (Result.json StatusOK (Payload.status "ok"), s)

/-- A connection pool over an empty table. -/
def samplePool : Pool Unit Todo where
  Query := fun _ _ s => (Except.ok [], s)
  Exec := fun _ _ s => (Except.ok 0, s)

/-- Copying a row into a `Todo`, without error. -/
def sampleScan : Todo → Todo → Todo × Option GoError := fun row _ => (row, none)

/-- A binder that reads the title `milk`. -/
def sampleBind : Context → Except GoError String := fun _ => Except.ok "milk"

/-- The process state before `main` runs. -/
def initialProcess : Process Unit Unit Unit :=
  { world := (), jwks := none, DB := none, log := [], use := [], groupUse := [],
    routes := [], started := [], exit := none }

/-- An environment with both URLs set. -/
def sampleGetenv : String → String :=
  fun k => if k = "POSTGRES_URL" then "postgres://db" else
    if k = "BETTER_AUTH_URL" then "http://auth" else ""

/-- A database connection that succeeds. -/
def sampleNew : String → Eff Unit (Option Unit × Option GoError) :=
  fun _ s => ((some (), none), s)

/-- A key-set fetch that fails. -/
def failingGet : String → Options → Eff Unit (Option Unit × Option GoError) :=
  fun _ _ s => ((none, some (GoError.other "connection refused")), s)

/-- A key-set fetch that succeeds. -/
def sampleGet : String → Options → Eff Unit (Option Unit × Option GoError) :=
  fun _ _ s => ((some (), none), s)

/-- A server that stops with an error. -/
def sampleStart : String → Eff Unit GoError :=
  fun _ s => (GoError.other "http: Server closed", s)

/-! ## Lemmas on `Split` -/

theorem splitAux_of_not_mem (sep : Char) (l : List Char) (h : sep ∉ l) :
    splitAux sep l = (l, []) := by
  induction l with
  | nil => rfl
  | cons c cs ih =>
    have hc : ¬ c = sep := fun e => h (by simp [e])
    have hcs : sep ∉ cs := fun e => h (by simp [e])
    simp [splitAux, hc, ih hcs]

theorem splitAux_append (sep : Char) (p q : List Char) (h : sep ∉ p) :
    splitAux sep (p ++ sep :: q) = (p, (splitAux sep q).1 :: (splitAux sep q).2) := by
  induction p with
  | nil => simp [splitAux]
  | cons c cs ih =>
    have hc : ¬ c = sep := fun e => h (by simp [e])
    have hcs : sep ∉ cs := fun e => h (by simp [e])
    simp [splitAux, hc, ih hcs]

theorem splitAux_fst_not_mem (sep : Char) (l : List Char) :
    sep ∉ (splitAux sep l).1 := by
  induction l with
  | nil => simp [splitAux]
  | cons c cs ih =>
    by_cases hc : c = sep
    · simp [splitAux, hc]
    · simp only [splitAux, hc, if_false, List.mem_cons, not_or]
      exact ⟨fun e => hc e.symm, ih⟩

theorem splitAux_snd_nil (sep : Char) (l : List Char) (h : (splitAux sep l).2 = []) :
    (splitAux sep l).1 = l := by
  induction l with
  | nil => rfl
  | cons c cs ih =>
    by_cases hc : c = sep
    · simp [splitAux, hc] at h
    · simp only [splitAux, hc, if_false] at h ⊢
      rw [ih h]

theorem splitAux_snd_cons (sep : Char) (l a : List Char) (as : List (List Char))
    (h : (splitAux sep l).2 = a :: as) :
    ∃ q, l = (splitAux sep l).1 ++ sep :: q ∧ splitAux sep q = (a, as) := by
  induction l with
  | nil => simp [splitAux] at h
  | cons c cs ih =>
    by_cases hc : c = sep
    · simp only [splitAux, hc, if_true, List.cons.injEq] at h ⊢
      exact ⟨cs, by simp, Prod.ext h.1 h.2⟩
    · simp only [splitAux, hc, if_false] at h ⊢
      obtain ⟨q, hq, hs⟩ := ih h
      exact ⟨q, by rw [List.cons_append, ← hq], hs⟩

/-- The header splits into `Bearer` and one more part exactly when it is
`"Bearer "` followed by a part without a space. -/
theorem Split_bearer_iff (h t : String) :
    Split h ' ' = ["Bearer", t] ↔ h = "Bearer " ++ t ∧ ' ' ∉ t.data := by
  constructor
  · intro hs
    simp only [Split, List.map_cons, List.cons.injEq] at hs
    obtain ⟨h1, hmap⟩ := hs
    have h1d : (splitAux ' ' h.data).1 = "Bearer".data := by
      have := congrArg String.data h1
      simpa using this
    obtain ⟨a, h2, h3d⟩ : ∃ a, (splitAux ' ' h.data).2 = [a] ∧ a = t.data := by
      rcases hl : (splitAux ' ' h.data).2 with _ | ⟨a, _ | ⟨b, l⟩⟩
      · rw [hl] at hmap
        simp at hmap
      · rw [hl] at hmap
        simp only [List.map_cons, List.map_nil, List.cons.injEq, and_true] at hmap
        exact ⟨a, rfl, by simpa using congrArg String.data hmap⟩
      · rw [hl] at hmap
        simp at hmap
    obtain ⟨q, hq, hsq⟩ := splitAux_snd_cons ' ' h.data a [] h2
    have hq2 : (splitAux ' ' q).2 = [] := by rw [hsq]
    have hq1 := splitAux_snd_nil ' ' q hq2
    rw [hsq] at hq1
    simp only at hq1
    have hnot := splitAux_fst_not_mem ' ' q
    rw [hsq] at hnot
    simp only at hnot
    subst hq1
    subst h3d
    refine ⟨?_, hnot⟩
    apply String.ext
    rw [hq, h1d]
    simp [String.data_append]
  · rintro ⟨rfl, ht⟩
    have hd : ("Bearer " ++ t).data = "Bearer".data ++ ' ' :: t.data := by
      simp [String.data_append]
    have hb : ' ' ∉ "Bearer".data := by decide
    simp only [Split, hd, splitAux_append ' ' _ _ hb, splitAux_of_not_mem ' ' _ ht]
    rfl

theorem scheme_check_iff (parts : List String) :
    ¬ (parts.length ≠ 2 ∨ parts[0]? ≠ some "Bearer") ↔ ∃ t, parts = ["Bearer", t] := by
  match parts with
  | [] => simp
  | [a] => simp
  | [a, b] =>
    constructor
    · intro hn
      have ha : a = "Bearer" := by
        by_contra hne
        exact hn (Or.inr (by simpa using hne))
      exact ⟨b, by rw [ha]⟩
    · rintro ⟨t, ht⟩ hn
      simp only [List.cons.injEq, and_true] at ht
      rcases hn with hn | hn
      · simp at hn
      · simp [ht.1] at hn
  | a :: b :: d :: l => simp

/-! ## The three stages of `JWTMiddleware` -/

theorem JWTMiddleware_missing {σ : Type} (Parse : String → Eff σ ParseResult)
    (next : HandlerFunc σ) (c : Context) (s : σ)
    (h : c.request.Header.Get "Authorization" = "") :
    JWTMiddleware Parse next c s =
      (Result.err (GoError.httpError 401 "missing Authorization header"), s) := by
  simp [JWTMiddleware, h, NewHTTPError, StatusUnauthorized]

theorem JWTMiddleware_malformed {σ : Type} (Parse : String → Eff σ ParseResult)
    (next : HandlerFunc σ) (c : Context) (s : σ)
    (h : c.request.Header.Get "Authorization" ≠ "")
    (hm : ¬ ∃ t, Split (c.request.Header.Get "Authorization") ' ' = ["Bearer", t]) :
    JWTMiddleware Parse next c s =
      (Result.err (GoError.httpError 401 "invalid Authorization header"), s) := by
  rw [← scheme_check_iff, not_not] at hm
  simp only [JWTMiddleware, h, if_false, hm, if_true, NewHTTPError, StatusUnauthorized]

theorem JWTMiddleware_bearer {σ : Type} (Parse : String → Eff σ ParseResult)
    (next : HandlerFunc σ) (c : Context) (s : σ) (t : String)
    (h : c.request.Header.Get "Authorization" ≠ "")
    (hs : Split (c.request.Header.Get "Authorization") ' ' = ["Bearer", t]) :
    JWTMiddleware Parse next c s =
      if (Parse t s).1.err ≠ none ∨ (Parse t s).1.token.Valid = false then
        (Result.err (GoError.httpError 401 "invalid token"), (Parse t s).2)
      else
        match (Parse t s).1.token.Claims with
        | Claims.mapClaims claims => next (c.Set "claims" (Any.claims claims)) (Parse t s).2
        | Claims.otherClaims _ =>
          (Result.err (GoError.httpError 401 "invalid token claims"), (Parse t s).2) := by
  have hc : ¬ ((Split (c.request.Header.Get "Authorization") ' ').length ≠ 2 ∨
      (Split (c.request.Header.Get "Authorization") ' ')[0]? ≠ some "Bearer") := by
    rw [scheme_check_iff]
    exact ⟨t, hs⟩
  simp only [JWTMiddleware, h, if_false, hc]
  simp only [hs, List.getD_cons_succ, List.getD_cons_zero, NewHTTPError, StatusUnauthorized]

theorem JWTMiddleware_traced_bearer {σ : Type} (Parse : String → Eff σ ParseResult)
    (next : HandlerFunc σ) (c : Context) (s : σ) (calls : List Call) (t : String)
    (h : c.request.Header.Get "Authorization" ≠ "")
    (hs : Split (c.request.Header.Get "Authorization") ' ' = ["Bearer", t]) :
    JWTMiddleware (traceParse Parse) (traceNext next) c (s, calls) =
      if (Parse t s).1.err ≠ none ∨ (Parse t s).1.token.Valid = false then
        (Result.err (GoError.httpError 401 "invalid token"),
          ((Parse t s).2, calls ++ [Call.parse t]))
      else
        match (Parse t s).1.token.Claims with
        | Claims.mapClaims claims =>
          ((next (c.Set "claims" (Any.claims claims)) (Parse t s).2).1,
            ((next (c.Set "claims" (Any.claims claims)) (Parse t s).2).2,
              calls ++ [Call.parse t, Call.next (c.Set "claims" (Any.claims claims))]))
        | Claims.otherClaims _ =>
          (Result.err (GoError.httpError 401 "invalid token claims"),
            ((Parse t s).2, calls ++ [Call.parse t])) := by
  rw [JWTMiddleware_bearer _ _ c _ t h hs]
  simp only [traceParse, traceNext]
  split
  · rfl
  · split <;> simp

theorem nextCalls_append (a b : List Call) : nextCalls (a ++ b) = nextCalls a + nextCalls b := by
  simp [nextCalls, List.filter_append]

theorem parseCalls_append (a b : List Call) : parseCalls (a ++ b) = parseCalls a ++ parseCalls b := by
  induction a with
  | nil => rfl
  | cons k ks ih => cases k <;> simp [parseCalls, ih]

theorem Header_Get_requestWith (auth : String) :
    (requestWith auth).request.Header.Get "Authorization" = auth := by
  simp [requestWith, Header.Get, List.lookup]

theorem not_Verified_of_missing {σ : Type} (Parse : String → Eff σ ParseResult)
    (c : Context) (s : σ) (h : c.request.Header.Get "Authorization" = "") :
    ¬ Verified Parse c s := fun hv => hv.1 h

theorem not_Verified_of_malformed {σ : Type} (Parse : String → Eff σ ParseResult)
    (c : Context) (s : σ)
    (h : ¬ ∃ t, Split (c.request.Header.Get "Authorization") ' ' = ["Bearer", t]) :
    ¬ Verified Parse c s := fun hv => by
  obtain ⟨_, t, _, ht, _⟩ := hv
  exact h ⟨t, ht⟩

/-! ## The claims -/

/-- C1: whenever the checks of `JWTMiddleware` do not all pass, it returns an HTTP
error with status 401, the downstream handler is invoked zero times and the
outcome is the same for every downstream handler; when they all pass, the
downstream handler is invoked exactly once. -/
theorem JWTMiddleware_rejects_without_next {σ : Type} (Parse : String → Eff σ ParseResult)
    (next : HandlerFunc σ) (c : Context) (s : σ) (calls : List Call) :
    (¬ Verified Parse c s →
      (∃ msg, (JWTMiddleware (traceParse Parse) (traceNext next) c (s, calls)).1 =
          Result.err (GoError.httpError 401 msg)) ∧
      nextCalls (JWTMiddleware (traceParse Parse) (traceNext next) c (s, calls)).2.2 =
        nextCalls calls ∧
      ∀ other : HandlerFunc σ, JWTMiddleware Parse other c s = JWTMiddleware Parse next c s) ∧
    (Verified Parse c s →
      nextCalls (JWTMiddleware (traceParse Parse) (traceNext next) c (s, calls)).2.2 =
        nextCalls calls + 1) := by
  by_cases h : c.request.Header.Get "Authorization" = ""
  · refine ⟨fun _ => ?_, fun hv => absurd h hv.1⟩
    refine ⟨⟨_, by rw [JWTMiddleware_missing _ _ _ _ h]⟩,
      by rw [JWTMiddleware_missing _ _ _ _ h], fun other => ?_⟩
    rw [JWTMiddleware_missing _ _ _ _ h, JWTMiddleware_missing _ _ _ _ h]
  · by_cases hm : ∃ t, Split (c.request.Header.Get "Authorization") ' ' = ["Bearer", t]
    · obtain ⟨t, ht⟩ := hm
      rw [JWTMiddleware_traced_bearer Parse next c s calls t h ht]
      constructor
      · intro hv
        by_cases he : (Parse t s).1.err ≠ none ∨ (Parse t s).1.token.Valid = false
        · refine ⟨⟨_, by rw [if_pos he]⟩, by rw [if_pos he]; simp [nextCalls_append, nextCalls],
            fun other => ?_⟩
          rw [JWTMiddleware_bearer Parse other c s t h ht,
            JWTMiddleware_bearer Parse next c s t h ht, if_pos he, if_pos he]
        · cases hc : (Parse t s).1.token.Claims with
          | mapClaims m =>
            exfalso
            apply hv
            refine ⟨h, t, m, ht, ?_, ?_, hc⟩
            · by_contra hne
              exact he (Or.inl hne)
            · cases hval : (Parse t s).1.token.Valid
              · exact absurd (Or.inr hval) he
              · rfl
          | otherClaims n =>
            refine ⟨⟨_, by rw [if_neg he]⟩, by rw [if_neg he]; simp [nextCalls_append, nextCalls],
              fun other => ?_⟩
            rw [JWTMiddleware_bearer Parse other c s t h ht,
              JWTMiddleware_bearer Parse next c s t h ht, if_neg he, if_neg he, hc]
      · rintro ⟨_, t2, m, ht2, herr, hval, hc⟩
        rw [ht] at ht2
        simp only [List.cons.injEq, and_true, true_and] at ht2
        subst ht2
        have he : ¬ ((Parse t s).1.err ≠ none ∨ (Parse t s).1.token.Valid = false) := by
          simp [herr, hval]
        rw [if_neg he, hc]
        simp [nextCalls_append, nextCalls]
    · have hnv := not_Verified_of_malformed Parse c s hm
      refine ⟨fun _ => ?_, fun hv => absurd hv hnv⟩
      refine ⟨⟨_, by rw [JWTMiddleware_malformed _ _ _ _ h hm]⟩,
        by rw [JWTMiddleware_malformed _ _ _ _ h hm], fun other => ?_⟩
      rw [JWTMiddleware_malformed _ _ _ _ h hm, JWTMiddleware_malformed _ _ _ _ h hm]

theorem Verified_good : Verified sampleParse (requestWith "Bearer good") () :=
  ⟨by decide, "good", [("sub", Value.str "user-42")], by decide, rfl, rfl, rfl⟩

/-- Witness of C1: a request without header is rejected with no call of the
handler, a request with an accepted token reaches it once. -/
theorem JWTMiddleware_rejects_without_next_witness :
    ¬ Verified sampleParse requestWithout () ∧
    ((∃ msg, (JWTMiddleware (traceParse sampleParse) (traceNext sampleNext) requestWithout
          ((), [])).1 = Result.err (GoError.httpError 401 msg)) ∧
      nextCalls (JWTMiddleware (traceParse sampleParse) (traceNext sampleNext) requestWithout
          ((), [])).2.2 = nextCalls [] ∧
      ∀ other : HandlerFunc Unit, JWTMiddleware sampleParse other requestWithout () =
        JWTMiddleware sampleParse sampleNext requestWithout ()) ∧
    Verified sampleParse (requestWith "Bearer good") () ∧
    nextCalls (JWTMiddleware (traceParse sampleParse) (traceNext sampleNext)
        (requestWith "Bearer good") ((), [])).2.2 = nextCalls [] + 1 :=
  ⟨not_Verified_of_missing sampleParse requestWithout () rfl,
   (JWTMiddleware_rejects_without_next sampleParse sampleNext requestWithout () []).1
     (not_Verified_of_missing sampleParse requestWithout () rfl),
   Verified_good,
   (JWTMiddleware_rejects_without_next sampleParse sampleNext (requestWith "Bearer good") () []).2
     Verified_good⟩

/-- C3: when the header lookup yields the empty string, `JWTMiddleware` returns
401 "missing Authorization header" whatever the rest of the request, and neither
the token verifier nor the downstream handler is called. -/
theorem missing_header_first {σ : Type} (Parse : String → Eff σ ParseResult)
    (next : HandlerFunc σ) (c : Context) (s : σ) (calls : List Call)
    (h : c.request.Header.Get "Authorization" = "") :
    JWTMiddleware (traceParse Parse) (traceNext next) c (s, calls) =
        (Result.err (GoError.httpError 401 "missing Authorization header"), (s, calls)) ∧
    JWTMiddleware Parse next c s =
        (Result.err (GoError.httpError 401 "missing Authorization header"), s) :=
  ⟨JWTMiddleware_missing _ _ c (s, calls) h, JWTMiddleware_missing _ _ c s h⟩

/-- Witness of C3 at a request without Authorization header. -/
theorem missing_header_first_witness :
    requestWithout.request.Header.Get "Authorization" = "" ∧
    JWTMiddleware (traceParse sampleParse) (traceNext sampleNext) requestWithout ((), []) =
      (Result.err (GoError.httpError 401 "missing Authorization header"), ((), [])) :=
  ⟨rfl, (missing_header_first sampleParse sampleNext requestWithout () [] rfl).1⟩

theorem parseCalls_traced_bearer {σ : Type} (Parse : String → Eff σ ParseResult)
    (next : HandlerFunc σ) (c : Context) (s : σ) (calls : List Call) (t : String)
    (h : c.request.Header.Get "Authorization" ≠ "")
    (hs : Split (c.request.Header.Get "Authorization") ' ' = ["Bearer", t]) :
    parseCalls (JWTMiddleware (traceParse Parse) (traceNext next) c (s, calls)).2.2 =
      parseCalls calls ++ [t] := by
  rw [JWTMiddleware_traced_bearer Parse next c s calls t h hs]
  split
  · simp [parseCalls_append, parseCalls]
  · split <;> simp [parseCalls_append, parseCalls]

/-- C7: when the header passes the scheme check, it is `"Bearer "` followed by a
token without a space, the token verifier is called exactly once, on that token,
and the same holds for every request with the same Authorization header,
whatever else it carries; the header `"Bearer "` passes the check and hands the
empty string to the verifier. -/
theorem verifier_receives_bearer_token {σ : Type} (Parse : String → Eff σ ParseResult)
    (next : HandlerFunc σ) (c : Context) (s : σ) (calls : List Call)
    (h : c.request.Header.Get "Authorization" ≠ "")
    (hp : ¬ ((Split (c.request.Header.Get "Authorization") ' ').length ≠ 2 ∨
        (Split (c.request.Header.Get "Authorization") ' ')[0]? ≠ some "Bearer")) :
    (∃ t : String, c.request.Header.Get "Authorization" = "Bearer " ++ t ∧ ' ' ∉ t.data ∧
      parseCalls (JWTMiddleware (traceParse Parse) (traceNext next) c (s, calls)).2.2 =
        parseCalls calls ++ [t] ∧
      ∀ (c2 : Context) (next2 : HandlerFunc σ),
        c2.request.Header.Get "Authorization" = c.request.Header.Get "Authorization" →
        parseCalls (JWTMiddleware (traceParse Parse) (traceNext next2) c2 (s, calls)).2.2 =
          parseCalls calls ++ [t]) ∧
    (c.request.Header.Get "Authorization" = "Bearer " →
      parseCalls (JWTMiddleware (traceParse Parse) (traceNext next) c (s, calls)).2.2 =
        parseCalls calls ++ [""]) := by
  obtain ⟨t, ht⟩ := (scheme_check_iff _).mp hp
  constructor
  · refine ⟨t, ((Split_bearer_iff _ t).mp ht).1, ((Split_bearer_iff _ t).mp ht).2,
      parseCalls_traced_bearer Parse next c s calls t h ht, fun c2 next2 h2 => ?_⟩
    exact parseCalls_traced_bearer Parse next2 c2 s calls t (by rw [h2]; exact h)
      (by rw [h2]; exact ht)
  · intro he
    have hs : Split (c.request.Header.Get "Authorization") ' ' = ["Bearer", ""] := by
      rw [he]
      decide
    exact parseCalls_traced_bearer Parse next c s calls "" h hs

/-- Witness of C7 at the header `"Bearer "`, whose token is empty. -/
theorem verifier_receives_bearer_token_witness :
    (requestWith "Bearer ").request.Header.Get "Authorization" ≠ "" ∧
    ¬ ((Split ((requestWith "Bearer ").request.Header.Get "Authorization") ' ').length ≠ 2 ∨
        (Split ((requestWith "Bearer ").request.Header.Get "Authorization") ' ')[0]? ≠
          some "Bearer") ∧
    parseCalls (JWTMiddleware (traceParse sampleParse) (traceNext sampleNext)
        (requestWith "Bearer ") ((), [])).2.2 = parseCalls [] ++ [""] :=
  ⟨by decide, by decide,
   (verifier_receives_bearer_token sampleParse sampleNext (requestWith "Bearer ") () []
      (by decide) (by decide)).2 (by decide)⟩

theorem bearer_append_ne_empty (t : String) : "Bearer " ++ t ≠ "" := by
  intro h
  have := congrArg String.length h
  simp only [String.length_append] at this
  have h7 : "Bearer ".length = 7 := by decide
  have h0 : "".length = 0 := by decide
  omega

/-- C4: when the header is `"Bearer "` followed by a token without a space that
the verifier accepts with claim set `m`, `JWTMiddleware` returns what `next`
returns on the context in which `claims` holds `m`, the request being unchanged;
`next` is the only call after the verifier; and when the handler is `GetTodos`,
the subject it reads is the `sub` entry of `m`. -/
theorem accepted_token_reaches_next {σ ρ : Type} (Parse : String → Eff σ ParseResult)
    (next : HandlerFunc σ) (c : Context) (s : σ) (calls : List Call)
    (t : String) (m : MapClaims)
    (hh : c.request.Header.Get "Authorization" = "Bearer " ++ t)
    (hsp : ' ' ∉ t.data)
    (herr : (Parse t s).1.err = none)
    (hval : (Parse t s).1.token.Valid = true)
    (hc : (Parse t s).1.token.Claims = Claims.mapClaims m) :
    JWTMiddleware Parse next c s = next (c.Set "claims" (Any.claims m)) (Parse t s).2 ∧
    (c.Set "claims" (Any.claims m)).Get "claims" = Any.claims m ∧
    (c.Set "claims" (Any.claims m)).request = c.request ∧
    (JWTMiddleware (traceParse Parse) (traceNext next) c (s, calls)).2.2 =
      calls ++ [Call.parse t, Call.next (c.Set "claims" (Any.claims m))] ∧
    ∀ (DB : Pool σ ρ) (Scan : ρ → Todo → Todo × Option GoError) (u : String), m.get "sub" = Value.str u →
      (JWTMiddleware (traceParse Parse) (GetTodos (tracePool DB) Scan) c (s, calls)).2.2 =
        calls ++ [Call.parse t, Call.query selectTodos [Arg.str u]] := by
  have h : c.request.Header.Get "Authorization" ≠ "" := by
    rw [hh]
    exact bearer_append_ne_empty t
  have hs := (Split_bearer_iff _ t).mpr ⟨hh, hsp⟩
  have he : ¬ ((Parse t s).1.err ≠ none ∨ (Parse t s).1.token.Valid = false) := by
    simp [herr, hval]
  have hget : (c.Set "claims" (Any.claims m)).Get "claims" = Any.claims m := by
    simp [Context.Set, Context.Get, List.lookup]
  refine ⟨?_, hget, rfl, ?_, ?_⟩
  · rw [JWTMiddleware_bearer Parse next c s t h hs, if_neg he, hc]
  · rw [JWTMiddleware_traced_bearer Parse next c s calls t h hs, if_neg he, hc]
  · intro DB Scan u hu
    have he2 : ¬ ((traceParse Parse t (s, calls)).1.err ≠ none ∨
        (traceParse Parse t (s, calls)).1.token.Valid = false) := he
    rw [JWTMiddleware_bearer (traceParse Parse) _ c (s, calls) t h hs, if_neg he2]
    have hc2 : (traceParse Parse t (s, calls)).1.token.Claims = Claims.mapClaims m := hc
    rw [hc2]
    simp only [GetTodos, hget, hu, tracePool, traceParse]
    split <;> simp

/-- Witness of C4 at the header `Bearer good`, whose token carries `sub = user-42`. -/
theorem accepted_token_reaches_next_witness :
    JWTMiddleware sampleParse sampleNext (requestWith "Bearer good") () =
      sampleNext ((requestWith "Bearer good").Set "claims"
        (Any.claims [("sub", Value.str "user-42")])) (sampleParse "good" ()).2 ∧
    (JWTMiddleware (traceParse sampleParse) (GetTodos (tracePool samplePool) sampleScan)
        (requestWith "Bearer good") ((), [])).2.2 =
      [] ++ [Call.parse "good", Call.query selectTodos [Arg.str "user-42"]] :=
  ⟨(@accepted_token_reaches_next Unit Todo sampleParse sampleNext (requestWith "Bearer good") ()
      [] "good" [("sub", Value.str "user-42")] (by decide) (by decide) rfl rfl rfl).1,
   (accepted_token_reaches_next sampleParse sampleNext (requestWith "Bearer good") ()
      [] "good" [("sub", Value.str "user-42")] (by decide) (by decide) rfl rfl rfl).2.2.2.2
      samplePool sampleScan "user-42" rfl⟩

theorem not_Verified_bad : ¬ Verified sampleParse (requestWith "Bearer bad") () := by
  rintro ⟨_, t, m, ht, herr, _⟩
  have hs : Split ((requestWith "Bearer bad").request.Header.Get "Authorization") ' ' =
      ["Bearer", "bad"] := by decide
  rw [hs] at ht
  simp only [List.cons.injEq, and_true, true_and] at ht
  subst ht
  exact absurd herr (by decide)

/-- C8, as stated, fails: a request without Authorization header and a request
with the header `Token abc` both fail in `JWTMiddleware`, and the two 401
responses carry different messages. -/
theorem failure_messages_differ :
    ¬ Verified sampleParse requestWithout () ∧
    ¬ Verified sampleParse (requestWith "Token abc") () ∧
    (JWTMiddleware sampleParse sampleNext requestWithout ()).1 =
      Result.err (GoError.httpError 401 "missing Authorization header") ∧
    (JWTMiddleware sampleParse sampleNext (requestWith "Token abc") ()).1 =
      Result.err (GoError.httpError 401 "invalid Authorization header") ∧
    (JWTMiddleware sampleParse sampleNext requestWithout ()).1 ≠
      (JWTMiddleware sampleParse sampleNext (requestWith "Token abc") ()).1 :=
  ⟨not_Verified_of_missing sampleParse requestWithout () rfl,
   not_Verified_of_malformed sampleParse (requestWith "Token abc") ()
     (by rw [← scheme_check_iff, not_not]; decide),
   by decide, by decide, by decide⟩

/-- C8, amended: every failure in `JWTMiddleware` returns an HTTP error with
status 401 whose message is one of four fixed strings, chosen by the first
check that fails and by nothing else: not by the token, not by the error value
of the parser, not by the downstream handler. -/
theorem failure_message_by_check {σ : Type} (Parse : String → Eff σ ParseResult)
    (next : HandlerFunc σ) (c : Context) (s : σ)
    (hf : ¬ Verified Parse c s) :
    (JWTMiddleware Parse next c s).1 = Result.err (GoError.httpError 401
      (if c.request.Header.Get "Authorization" = "" then "missing Authorization header"
       else if (Split (c.request.Header.Get "Authorization") ' ').length ≠ 2 ∨
           (Split (c.request.Header.Get "Authorization") ' ')[0]? ≠ some "Bearer" then
         "invalid Authorization header"
       else if (Parse ((Split (c.request.Header.Get "Authorization") ' ').getD 1 "") s).1.err
             ≠ none ∨
           (Parse ((Split (c.request.Header.Get "Authorization") ' ').getD 1 "") s).1.token.Valid
             = false then
         "invalid token"
       else "invalid token claims")) ∧
    ∃ msg ∈ ["missing Authorization header", "invalid Authorization header", "invalid token",
        "invalid token claims"],
      (JWTMiddleware Parse next c s).1 = Result.err (GoError.httpError 401 msg) := by
  by_cases h : c.request.Header.Get "Authorization" = ""
  · rw [JWTMiddleware_missing _ _ _ _ h, if_pos h]
    exact ⟨rfl, _, by simp, rfl⟩
  · by_cases hm : ∃ t, Split (c.request.Header.Get "Authorization") ' ' = ["Bearer", t]
    · have hp := (scheme_check_iff _).mpr hm
      obtain ⟨t, ht⟩ := hm
      rw [JWTMiddleware_bearer Parse next c s t h ht, if_neg h, if_neg hp]
      simp only [ht, List.getD_cons_succ, List.getD_cons_zero]
      by_cases he : (Parse t s).1.err ≠ none ∨ (Parse t s).1.token.Valid = false
      · rw [if_pos he, if_pos he]
        exact ⟨rfl, _, by simp, rfl⟩
      · rw [if_neg he, if_neg he]
        cases hc : (Parse t s).1.token.Claims with
        | mapClaims m =>
          exfalso
          apply hf
          refine ⟨h, t, m, ht, ?_, ?_, hc⟩
          · by_contra hne
            exact he (Or.inl hne)
          · cases hval : (Parse t s).1.token.Valid
            · exact absurd (Or.inr hval) he
            · rfl
        | otherClaims n => exact ⟨rfl, _, by simp, rfl⟩
    · have hp : (Split (c.request.Header.Get "Authorization") ' ').length ≠ 2 ∨
          (Split (c.request.Header.Get "Authorization") ' ')[0]? ≠ some "Bearer" := by
        rw [← scheme_check_iff, not_not] at hm
        exact hm
      rw [JWTMiddleware_malformed _ _ _ _ h hm, if_neg h, if_pos hp]
      exact ⟨rfl, _, by simp, rfl⟩

/-- Witness of the amended C8 at a token the verifier rejects. -/
theorem failure_message_by_check_witness :
    ¬ Verified sampleParse (requestWith "Bearer bad") () ∧
    ∃ msg ∈ ["missing Authorization header", "invalid Authorization header", "invalid token",
        "invalid token claims"],
      (JWTMiddleware sampleParse sampleNext (requestWith "Bearer bad") ()).1 =
        Result.err (GoError.httpError 401 msg) :=
  ⟨not_Verified_bad,
   (failure_message_by_check sampleParse sampleNext (requestWith "Bearer bad") ()
      not_Verified_bad).2⟩

/-- C5 on the code: the token `nosub` is accepted by the verifier with a claim
set that has no `sub` entry; `JWTMiddleware` does not return 401 but invokes the
handler, once, and the subject extraction of `GetTodos` and of `CreateTodo`
panics. -/
theorem missing_subject_reaches_handler :
    (sampleParse "nosub" ()).1.err = none ∧
    (sampleParse "nosub" ()).1.token.Valid = true ∧
    (∃ m : MapClaims, (sampleParse "nosub" ()).1.token.Claims = Claims.mapClaims m ∧
      m.get "sub" = Value.null) ∧
    JWTMiddleware sampleParse (GetTodos samplePool sampleScan) (requestWith "Bearer nosub") () =
      (Result.panic "interface conversion: interface \x7b\x7d is nil, not string", ()) ∧
    JWTMiddleware sampleParse (CreateTodo samplePool sampleBind) (requestWith "Bearer nosub") () =
      (Result.panic "interface conversion: interface \x7b\x7d is nil, not string", ()) ∧
    nextCalls (JWTMiddleware (traceParse sampleParse)
      (traceNext (GetTodos samplePool sampleScan)) (requestWith "Bearer nosub") ((), [])).2.2 = 1 :=
  ⟨rfl, rfl, ⟨[("exp", Value.number "4102444800")], rfl, by decide⟩, by decide, by decide,
   by decide⟩

theorem GetTodos_trace {σ ρ : Type} (DB : Pool σ ρ) (Scan : ρ → Todo → Todo × Option GoError) (c : Context)
    (s : σ) (calls : List Call) (m : MapClaims) (u : String)
    (hc : c.Get "claims" = Any.claims m) (hu : m.get "sub" = Value.str u) :
    (GetTodos (tracePool DB) Scan c (s, calls)).2.2 =
      calls ++ [Call.query selectTodos [Arg.str u]] := by
  simp only [GetTodos, hc, hu, tracePool]
  split <;> rfl

theorem CreateTodo_trace {σ ρ : Type} (DB : Pool σ ρ) (Bind : Context → Except GoError String)
    (c : Context) (s : σ) (calls : List Call) (m : MapClaims) (u : String)
    (hc : c.Get "claims" = Any.claims m) (hu : m.get "sub" = Value.str u) :
    (CreateTodo (tracePool DB) Bind c (s, calls)).2.2 =
      calls ++ (match Bind c with
        | Except.error _ => []
        | Except.ok title => [Call.exec insertTodo [Arg.str u, Arg.str title]]) := by
  simp only [CreateTodo, hc, hu, tracePool]
  cases Bind c with
  | error e => simp
  | ok title =>
    simp only
    split <;> rfl

theorem DeleteTodo_trace {σ ρ : Type} (DB : Pool σ ρ)
    (c : Context) (s : σ) (calls : List Call) (m : MapClaims) (u : String)
    (hc : c.Get "claims" = Any.claims m) (hu : m.get "sub" = Value.str u) :
    (DeleteTodo (tracePool DB) c (s, calls)).2.2 =
      calls ++ (match ParseInt (c.Param "id") 64 with
        | Except.error _ => []
        | Except.ok id => [Call.exec deleteTodo [Arg.int id, Arg.str u]]) := by
  simp only [DeleteTodo, hc, hu, tracePool]
  cases ParseInt (c.Param "id") 64 with
  | error e => simp
  | ok id =>
    simp only
    split
    · rfl
    · split <;> rfl

theorem ToggleTodo_trace {σ ρ : Type} (DB : Pool σ ρ)
    (c : Context) (s : σ) (calls : List Call) (m : MapClaims) (u : String)
    (hc : c.Get "claims" = Any.claims m) (hu : m.get "sub" = Value.str u) :
    (ToggleTodo (tracePool DB) c (s, calls)).2.2 =
      calls ++ (match ParseInt (c.Param "id") 64 with
        | Except.error _ => []
        | Except.ok id => [Call.exec toggleTodo [Arg.int id, Arg.str u]]) := by
  simp only [ToggleTodo, hc, hu, tracePool]
  cases ParseInt (c.Param "id") 64 with
  | error e => simp
  | ok id =>
    simp only
    split
    · rfl
    · split <;> rfl

theorem parseSQL_selectTodos :
    parseSQL selectTodos = some (Stmt.select ["id", "user_id", "title", "completed"] "todos"
      [("user_id", 1)] [Tok.word "ORDER", Tok.word "BY", Tok.word "id", Tok.word "DESC"]) := by
  decide

theorem parseSQL_insertTodo :
    parseSQL insertTodo = some (Stmt.insert "todos" ["user_id", "title"] [1, 2]) := by
  decide

theorem parseSQL_deleteTodo :
    parseSQL deleteTodo = some (Stmt.delete "todos" [("id", 1), ("user_id", 2)]) := by
  decide

theorem parseSQL_toggleTodo :
    parseSQL toggleTodo = some (Stmt.update "todos"
      [Tok.word "completed", Tok.sym '=', Tok.word "NOT", Tok.word "completed"]
      [("id", 1), ("user_id", 2)]) := by
  decide

/-- A statement whose text ties `user_id` to placeholder `$n`, sent with `u`
bound to `$n`, has owner key `u` and reaches only rows of user `u`. -/
theorem owner_of_binding (sql : String) (args : List Arg) (st : Stmt) (n : Nat) (u : String)
    (k : Call) (hk : k = Call.query sql args ∨ k = Call.exec sql args)
    (hp : parseSQL sql = some st)
    (hb : ("user_id", n) ∈ st.bindings)
    (hl : st.bindings.lookup "user_id" = some n)
    (ha : bound args n = some (Arg.str u)) :
    ownerKey k = some (Arg.str u) ∧ ∀ row : Todo, touches k row → row.UserID = u := by
  have hcol : ∀ row : Todo, columnValue row "user_id" = some (Arg.str row.UserID) := by
    intro row
    simp [columnValue]
  rcases hk with rfl | rfl
  · refine ⟨by simp only [ownerKey, hp, hl, ha], fun row ht => ?_⟩
    simp only [touches, hp] at ht
    have := ht ("user_id", n) hb (Arg.str row.UserID) (hcol row)
    rw [ha] at this
    simpa using this.symm
  · refine ⟨by simp only [ownerKey, hp, hl, ha], fun row ht => ?_⟩
    simp only [touches, hp] at ht
    have := ht ("user_id", n) hb (Arg.str row.UserID) (hcol row)
    rw [ha] at this
    simpa using this.symm

theorem ownerKey_handler_calls {σ ρ : Type} (DB : Pool σ ρ)
    (Scan : ρ → Todo → Todo × Option GoError)
    (Bind : Context → Except GoError String) (c : Context) (s : σ) (m : MapClaims) (u : String)
    (hc : c.Get "claims" = Any.claims m) (hu : m.get "sub" = Value.str u) :
    ∀ k ∈ (GetTodos (tracePool DB) Scan c (s, [])).2.2 ++
          (CreateTodo (tracePool DB) Bind c (s, [])).2.2 ++
          (DeleteTodo (tracePool DB) c (s, [])).2.2 ++
          (ToggleTodo (tracePool DB) c (s, [])).2.2,
      ownerKey k = some (Arg.str u) ∧ ∀ row : Todo, touches k row → row.UserID = u := by
  intro k hk
  rw [GetTodos_trace DB Scan c s [] m u hc hu, CreateTodo_trace DB Bind c s [] m u hc hu,
    DeleteTodo_trace DB c s [] m u hc hu, ToggleTodo_trace DB c s [] m u hc hu] at hk
  simp only [List.nil_append, List.mem_append, List.mem_singleton] at hk
  rcases hk with ((hk | hk) | hk) | hk
  · exact owner_of_binding selectTodos [Arg.str u] _ 1 u k (Or.inl hk) parseSQL_selectTodos
      (by decide) (by decide) rfl
  · cases hb : Bind c with
    | error e => rw [hb] at hk; simp at hk
    | ok title =>
      rw [hb] at hk
      simp only [List.mem_singleton] at hk
      exact owner_of_binding insertTodo [Arg.str u, Arg.str title] _ 1 u k (Or.inr hk)
        parseSQL_insertTodo (by decide) (by decide) rfl
  · cases hb : ParseInt (c.Param "id") 64 with
    | error e => rw [hb] at hk; simp at hk
    | ok id =>
      rw [hb] at hk
      simp only [List.mem_singleton] at hk
      exact owner_of_binding deleteTodo [Arg.int id, Arg.str u] _ 2 u k (Or.inr hk)
        parseSQL_deleteTodo (by decide) (by decide) rfl
  · cases hb : ParseInt (c.Param "id") 64 with
    | error e => rw [hb] at hk; simp at hk
    | ok id =>
      rw [hb] at hk
      simp only [List.mem_singleton] at hk
      exact owner_of_binding toggleTodo [Arg.int id, Arg.str u] _ 2 u k (Or.inr hk)
        parseSQL_toggleTodo (by decide) (by decide) rfl

/-- C6: in a context whose `claims` entry has the string `u` under `sub`, each of
the four handlers issues at most one statement, the fixed statement of that
handler. Read from its text, that statement is a `SELECT`, `DELETE` or `UPDATE`
on `todos` whose `WHERE` clause is a conjunction containing `user_id = $n`, or
an `INSERT` into `todos` that writes `user_id` from `$n`; the argument the
handler binds to that `$n` is `u`, so the statement reaches only rows whose
`user_id` is `u`. For any other request with the same subject, whatever its
body, path parameters, headers and binder, every statement of every handler
binds the same `u` and reaches only rows of `u`. -/
theorem handlers_bind_verified_subject {σ ρ : Type} (DB : Pool σ ρ)
    (Scan : ρ → Todo → Todo × Option GoError)
    (Bind : Context → Except GoError String) (c : Context) (s : σ) (calls : List Call)
    (m : MapClaims) (u : String)
    (hc : c.Get "claims" = Any.claims m) (hu : m.get "sub" = Value.str u) :
    ((GetTodos (tracePool DB) Scan c (s, calls)).2.2 =
        calls ++ [Call.query selectTodos [Arg.str u]] ∧
      (CreateTodo (tracePool DB) Bind c (s, calls)).2.2 =
        calls ++ (match Bind c with
          | Except.error _ => []
          | Except.ok title => [Call.exec insertTodo [Arg.str u, Arg.str title]]) ∧
      (DeleteTodo (tracePool DB) c (s, calls)).2.2 =
        calls ++ (match ParseInt (c.Param "id") 64 with
          | Except.error _ => []
          | Except.ok id => [Call.exec deleteTodo [Arg.int id, Arg.str u]]) ∧
      (ToggleTodo (tracePool DB) c (s, calls)).2.2 =
        calls ++ (match ParseInt (c.Param "id") 64 with
          | Except.error _ => []
          | Except.ok id => [Call.exec toggleTodo [Arg.int id, Arg.str u]])) ∧
    (parseSQL selectTodos = some (Stmt.select ["id", "user_id", "title", "completed"] "todos"
        [("user_id", 1)] [Tok.word "ORDER", Tok.word "BY", Tok.word "id", Tok.word "DESC"]) ∧
      parseSQL insertTodo = some (Stmt.insert "todos" ["user_id", "title"] [1, 2]) ∧
      parseSQL deleteTodo = some (Stmt.delete "todos" [("id", 1), ("user_id", 2)]) ∧
      parseSQL toggleTodo = some (Stmt.update "todos"
        [Tok.word "completed", Tok.sym '=', Tok.word "NOT", Tok.word "completed"]
        [("id", 1), ("user_id", 2)])) ∧
    ∀ (c2 : Context) (m2 : MapClaims) (Bind2 : Context → Except GoError String) (s2 : σ),
      c2.Get "claims" = Any.claims m2 → m2.get "sub" = Value.str u →
      ∀ k ∈ (GetTodos (tracePool DB) Scan c (s, [])).2.2 ++
            (CreateTodo (tracePool DB) Bind c (s, [])).2.2 ++
            (DeleteTodo (tracePool DB) c (s, [])).2.2 ++
            (ToggleTodo (tracePool DB) c (s, [])).2.2,
      ∀ k2 ∈ (GetTodos (tracePool DB) Scan c2 (s2, [])).2.2 ++
            (CreateTodo (tracePool DB) Bind2 c2 (s2, [])).2.2 ++
            (DeleteTodo (tracePool DB) c2 (s2, [])).2.2 ++
            (ToggleTodo (tracePool DB) c2 (s2, [])).2.2,
        (ownerKey k = some (Arg.str u) ∧ ∀ row : Todo, touches k row → row.UserID = u) ∧
        (ownerKey k2 = some (Arg.str u) ∧ ∀ row : Todo, touches k2 row → row.UserID = u) :=
  ⟨⟨GetTodos_trace DB Scan c s calls m u hc hu,
    CreateTodo_trace DB Bind c s calls m u hc hu,
    DeleteTodo_trace DB c s calls m u hc hu,
    ToggleTodo_trace DB c s calls m u hc hu⟩,
   ⟨parseSQL_selectTodos, parseSQL_insertTodo, parseSQL_deleteTodo, parseSQL_toggleTodo⟩,
   fun c2 m2 Bind2 s2 hc2 hu2 k hk k2 hk2 =>
     ⟨ownerKey_handler_calls DB Scan Bind c s m u hc hu k hk,
      ownerKey_handler_calls DB Scan Bind2 c2 s2 m2 u hc2 hu2 k2 hk2⟩⟩

/-- Witness of C6 at a `DELETE /api/todos/7` request of subject `user-42` whose
body names `user-1`: the statement binds `user-42` to the placeholder of
`user_id` and reaches only rows of `user-42`. -/
theorem handlers_bind_verified_subject_witness :
    ((requestDelete "Bearer good").Set "claims"
        (Any.claims [("sub", Value.str "user-42")])).Get "claims" =
      Any.claims [("sub", Value.str "user-42")] ∧
    MapClaims.get [("sub", Value.str "user-42")] "sub" = Value.str "user-42" ∧
    (DeleteTodo (tracePool samplePool) ((requestDelete "Bearer good").Set "claims"
        (Any.claims [("sub", Value.str "user-42")])) ((), [])).2.2 =
      [Call.exec deleteTodo [Arg.int 7, Arg.str "user-42"]] ∧
    ownerKey (Call.exec deleteTodo [Arg.int 7, Arg.str "user-42"]) =
      some (Arg.str "user-42") ∧
    ∀ row : Todo, touches (Call.exec deleteTodo [Arg.int 7, Arg.str "user-42"]) row →
      row.UserID = "user-42" :=
  have w := handlers_bind_verified_subject samplePool sampleScan sampleBind
      ((requestDelete "Bearer good").Set "claims" (Any.claims [("sub", Value.str "user-42")]))
      () [] [("sub", Value.str "user-42")] "user-42" (by decide) (by decide)
  have o := (w.2.2 ((requestDelete "Bearer good").Set "claims"
      (Any.claims [("sub", Value.str "user-42")])) [("sub", Value.str "user-42")] sampleBind ()
      (by decide) (by decide)
      (Call.exec deleteTodo [Arg.int 7, Arg.str "user-42"]) (by decide)
      (Call.exec deleteTodo [Arg.int 7, Arg.str "user-42"]) (by decide)).1
  ⟨by decide, by decide, w.1.2.2.1, o.1, o.2⟩

theorem InitDB_keeps_echo {σ κ π : Type} (Getenv : String → String)
    (New : String → Eff σ (Option π × Option GoError)) (p : Process σ κ π) :
    (InitDB Getenv New p).use = p.use ∧ (InitDB Getenv New p).groupUse = p.groupUse ∧
    (InitDB Getenv New p).routes = p.routes ∧ (InitDB Getenv New p).started = p.started ∧
    (InitDB Getenv New p).jwks = p.jwks := by
  unfold InitDB
  simp only
  split
  · simp
  · split <;> simp

/-- C9: `InitJWKS` calls the key-set fetch once, with the URL
`authURL ++ "/api/auth/jwks"` and with `RefreshUnknownKID` set, stores the
fetched key set in `jwks` and returns the error of the fetch as it is; and when
`InitJWKS` returns an error in `main`, the process exits with status 1 with no
middleware installed, no route registered and the server not started, so a
process that installed `JWTMiddleware`, registered a route or started the
server had its key set initialised without error. -/
theorem InitJWKS_failure_stops_main {σ κ π : Type} (Getenv : String → String)
    (New : String → Eff σ (Option π × Option GoError))
    (Get : String → Options → Eff σ (Option κ × Option GoError))
    (Start : String → Eff σ GoError)
    (p0 : Process σ κ π) (authURL : String) (p : Process (σ × List Call) κ π) :
    ((InitJWKS (traceGet Get) authURL p).1 =
        (Get (authURL ++ "/api/auth/jwks") (Options.mk 0 0 0 true) p.world.1).1.2 ∧
      (InitJWKS (traceGet Get) authURL p).2.jwks =
        (Get (authURL ++ "/api/auth/jwks") (Options.mk 0 0 0 true) p.world.1).1.1 ∧
      (InitJWKS (traceGet Get) authURL p).2.world.2 =
        p.world.2 ++ [Call.fetch (authURL ++ "/api/auth/jwks") (Options.mk 0 0 0 true)]) ∧
    (∀ e : GoError, (InitDB Getenv New p0).exit = none →
      (InitJWKS Get (Getenv "BETTER_AUTH_URL") (InitDB Getenv New p0)).1 = some e →
      (main Getenv New Get Start p0).exit = some 1 ∧
      (main Getenv New Get Start p0).use = p0.use ∧
      (main Getenv New Get Start p0).groupUse = p0.groupUse ∧
      (main Getenv New Get Start p0).routes = p0.routes ∧
      (main Getenv New Get Start p0).started = p0.started ∧
      (main Getenv New Get Start p0).world =
        (InitJWKS Get (Getenv "BETTER_AUTH_URL") (InitDB Getenv New p0)).2.world) ∧
    ((main Getenv New Get Start p0).groupUse ≠ p0.groupUse ∨
      (main Getenv New Get Start p0).routes ≠ p0.routes ∨
      (main Getenv New Get Start p0).started ≠ p0.started →
      (InitDB Getenv New p0).exit = none ∧
      (InitJWKS Get (Getenv "BETTER_AUTH_URL") (InitDB Getenv New p0)).1 = none ∧
      (main Getenv New Get Start p0).jwks =
        (InitJWKS Get (Getenv "BETTER_AUTH_URL") (InitDB Getenv New p0)).2.jwks) := by
  obtain ⟨hu, hg, hr, hst, _⟩ := InitDB_keeps_echo Getenv New p0
  refine ⟨⟨rfl, rfl, rfl⟩, ?_, ?_⟩
  · intro e hx he
    have hx2 : ¬ (InitDB Getenv New p0).exit ≠ none := by simp [hx]
    simp only [main, if_neg hx2, he]
    simp only [InitJWKS, hu, hg, hr, hst]
    simp
  · intro hch
    by_cases hx : (InitDB Getenv New p0).exit = none
    · have hx2 : ¬ (InitDB Getenv New p0).exit ≠ none := by simp [hx]
      cases he : (InitJWKS Get (Getenv "BETTER_AUTH_URL") (InitDB Getenv New p0)).1 with
      | none =>
        refine ⟨hx, rfl, ?_⟩
        simp only [main, if_neg hx2, he]
      | some e =>
        exfalso
        simp only [main, if_neg hx2, he] at hch
        simp only [InitJWKS, hg, hr, hst] at hch
        simp at hch
    · exfalso
      have hx2 : (InitDB Getenv New p0).exit ≠ none := hx
      simp only [main, if_pos hx2, hg, hr, hst] at hch
      simp at hch

/-- Witness of C9: with a reachable database and a failing key-set fetch, `main`
exits with status 1 and an echo instance without middleware, routes or server;
with a fetch that succeeds the server is started and `InitJWKS` returned nil. -/
theorem InitJWKS_failure_stops_main_witness :
    (InitDB sampleGetenv sampleNew initialProcess).exit = none ∧
    (InitJWKS failingGet (sampleGetenv "BETTER_AUTH_URL")
        (InitDB sampleGetenv sampleNew initialProcess)).1 =
      some (GoError.other "connection refused") ∧
    (main sampleGetenv sampleNew failingGet sampleStart initialProcess).exit = some 1 ∧
    (main sampleGetenv sampleNew failingGet sampleStart initialProcess).groupUse = [] ∧
    (main sampleGetenv sampleNew failingGet sampleStart initialProcess).routes = [] ∧
    (main sampleGetenv sampleNew failingGet sampleStart initialProcess).started = [] ∧
    (main sampleGetenv sampleNew sampleGet sampleStart initialProcess).started ≠ [] ∧
    (InitJWKS sampleGet (sampleGetenv "BETTER_AUTH_URL")
        (InitDB sampleGetenv sampleNew initialProcess)).1 = none :=
  have h := (InitJWKS_failure_stops_main sampleGetenv sampleNew failingGet sampleStart
    initialProcess "" { initialProcess with world := ((), []) }).2.1
    (GoError.other "connection refused") (by decide) (by decide)
  have g := (InitJWKS_failure_stops_main sampleGetenv sampleNew sampleGet sampleStart
    initialProcess "" { initialProcess with world := ((), []) }).2.2
    (Or.inr (Or.inr (by decide)))
  ⟨by decide, by decide, h.1, h.2.2.1, h.2.2.2.1, h.2.2.2.2.1, by decide, g.2.1⟩

end Backend
